import Mathlib

/-!
Verification of the bearden service-health dashboard.

This file shallowly embeds the repository's three source files:
  * `app.py`        — configuration deep-merge, health probing and routing;
  * `server.py`     — the PID-file daemon controller (start/stop/restart/status);
  * `gunicorn.conf.py` — the process-manager's independent port computation.

Python dictionaries are embedded as association lists in insertion order;
assignment to an existing key updates the value in place, assignment to a
fresh key appends.  Configuration values (TOML documents) are embedded by the
inductive `Value`.
-/

namespace Bearden

/-- `d[k]` lookup returning the first binding of `k`, i.e. Python `d.get(k)`. -/
def getKey {α : Type} : List (String × α) → String → Option α
  | [], _ => none
  | (k1, v1) :: rest, k => if k1 = k then some v1 else getKey rest k

/-- Python `d[k] = v`: update the binding in place if the key is present,
append it otherwise. -/
def setKey {α : Type} : List (String × α) → String → α → List (String × α)
  | [], k, v => [(k, v)]
  | (k1, v1) :: rest, k, v =>
    if k1 = k then (k1, v) :: rest else (k1, v1) :: setKey rest k v

/-- Keys are pairwise distinct, as Python dictionaries guarantee. -/
def nodupKeys {α : Type} : List (String × α) → Bool
  | [] => true
  | (k, _) :: rest => (getKey rest k).isNone && nodupKeys rest

/-- A TOML / JSON-like configuration value as produced by `tomllib.load`. -/
inductive Value where
  | bool : Bool → Value
  | int : Int → Value
  | str : String → Value
  | list : List Value → Value
  | dict : List (String × Value) → Value

mutual

/-- `app.deep_merge` from `app.py`: start from a copy of `base`; for each
key of `override`, recurse when both sides hold a dict at that key and
otherwise let the override value replace the base value wholesale. -/
def deep_merge : List (String × Value) → List (String × Value) → List (String × Value)
  | base, [] => base
  | base, (k, v) :: rest => deep_merge (mergeStep base k v) rest
termination_by _ o => sizeOf o
decreasing_by
  all_goals simp_wf
  all_goals omega

/-- One iteration of the `deep_merge` loop body from `app.py`. -/
def mergeStep : List (String × Value) → String → Value → List (String × Value)
  | base, k, Value.dict od =>
    match getKey base k with
    | some (Value.dict bd) => setKey base k (Value.dict (deep_merge bd od))
    | _ => setKey base k (Value.dict od)
  | base, k, v => setKey base k v
termination_by _ _ v => sizeOf v
decreasing_by
  all_goals simp_wf

end

@[simp] theorem getKey_nil {α : Type} (k : String) :
    getKey ([] : List (String × α)) k = none := rfl

theorem getKey_cons {α : Type} (k1 k : String) (v1 : α) (rest : List (String × α)) :
    getKey ((k1, v1) :: rest) k = if k1 = k then some v1 else getKey rest k := rfl

theorem getKey_setKey_self {α : Type} (d : List (String × α)) (k : String) (v : α) :
    getKey (setKey d k v) k = some v := by
  induction d with
  | nil => simp [setKey, getKey]
  | cons hd rest ih =>
    obtain ⟨k1, v1⟩ := hd
    by_cases h : k1 = k
    · simp [setKey, getKey, h]
    · simp [setKey, getKey, h, ih]

theorem getKey_setKey_ne {α : Type} (d : List (String × α)) (k1 k : String) (v : α)
    (h : k1 ≠ k) : getKey (setKey d k1 v) k = getKey d k := by
  induction d with
  | nil => simp [setKey, getKey, h]
  | cons hd rest ih =>
    obtain ⟨k2, v2⟩ := hd
    by_cases h2 : k2 = k1
    · subst h2
      simp [setKey, getKey, h]
    · simp [setKey, getKey, h2, ih]

theorem nodupKeys_cons {α : Type} (k : String) (v : α) (rest : List (String × α))
    (h : nodupKeys ((k, v) :: rest) = true) :
    getKey rest k = none ∧ nodupKeys rest = true := by
  simp [nodupKeys, Option.isNone_iff_eq_none] at h
  exact h

/-- The per-key description of a merged lookup: absent override keys keep the
base binding, dict-against-dict conflicts merge recursively, and every other
override binding wins verbatim. -/
def mergeSpec (b o : List (String × Value)) (k : String) : Option Value :=
  match getKey o k, getKey b k with
  | none, r => r
  | some (Value.dict od), some (Value.dict bd) => some (Value.dict (deep_merge bd od))
  | some v, _ => some v

theorem mergeSpec_congr (b b2 o : List (String × Value)) (k : String)
    (h : getKey b k = getKey b2 k) : mergeSpec b o k = mergeSpec b2 o k := by
  unfold mergeSpec
  rw [h]

theorem getKey_mergeStep_ne (b : List (String × Value)) (k1 k : String) (v : Value)
    (h : k1 ≠ k) : getKey (mergeStep b k1 v) k = getKey b k := by
  cases v with
  | dict od =>
    unfold mergeStep
    rcases hb : getKey b k1 with _ | bv
    · simp [getKey_setKey_ne _ _ _ _ h]
    · cases bv <;> simp [getKey_setKey_ne _ _ _ _ h]
  | bool x => simp [mergeStep, getKey_setKey_ne _ _ _ _ h]
  | int x => simp [mergeStep, getKey_setKey_ne _ _ _ _ h]
  | str x => simp [mergeStep, getKey_setKey_ne _ _ _ _ h]
  | list x => simp [mergeStep, getKey_setKey_ne _ _ _ _ h]

theorem getKey_mergeStep_self (b : List (String × Value)) (k : String) (v : Value) :
    getKey (mergeStep b k v) k =
      match getKey b k, v with
      | some (Value.dict bd), Value.dict od => some (Value.dict (deep_merge bd od))
      | _, _ => some v := by
  cases v with
  | dict od =>
    unfold mergeStep
    rcases hb : getKey b k with _ | bv
    · simp [getKey_setKey_self]
    · cases bv <;> simp [getKey_setKey_self]
  | bool x => rcases hb : getKey b k with _ | bv
              · simp [mergeStep, getKey_setKey_self]
              · cases bv <;> simp [mergeStep, getKey_setKey_self]
  | int x => rcases hb : getKey b k with _ | bv
             · simp [mergeStep, getKey_setKey_self]
             · cases bv <;> simp [mergeStep, getKey_setKey_self]
  | str x => rcases hb : getKey b k with _ | bv
             · simp [mergeStep, getKey_setKey_self]
             · cases bv <;> simp [mergeStep, getKey_setKey_self]
  | list x => rcases hb : getKey b k with _ | bv
              · simp [mergeStep, getKey_setKey_self]
              · cases bv <;> simp [mergeStep, getKey_setKey_self]

theorem getKey_deep_merge (o : List (String × Value)) :
    ∀ (b : List (String × Value)) (k : String), nodupKeys o = true →
      getKey (deep_merge b o) k = mergeSpec b o k := by
  induction o with
  | nil =>
    intro b k _
    simp [deep_merge, mergeSpec, getKey]
  | cons hd rest ih =>
    obtain ⟨k1, v1⟩ := hd
    intro b k hnd
    obtain ⟨hk1, hrest⟩ := nodupKeys_cons k1 v1 rest hnd
    have hstep : deep_merge b ((k1, v1) :: rest) = deep_merge (mergeStep b k1 v1) rest := by
      rw [deep_merge]
    rw [hstep, ih (mergeStep b k1 v1) k hrest]
    by_cases hk : k1 = k
    · subst hk
      unfold mergeSpec
      rw [hk1, getKey_mergeStep_self]
      rw [getKey_cons]
      simp
      rcases hb : getKey b k1 with _ | bv
      · cases v1 <;> simp
      · cases bv <;> cases v1 <;> simp
    · have hgo : getKey ((k1, v1) :: rest) k = getKey rest k := by
        rw [getKey_cons, if_neg hk]
      have hgb : getKey (mergeStep b k1 v1) k = getKey b k := getKey_mergeStep_ne b k1 k v1 hk
      rw [mergeSpec_congr _ b _ _ hgb]
      unfold mergeSpec
      rw [hgo]

/-- Claim C1: for every pair of dicts, `deep_merge` returns a dict in which a
key present only in the override maps to the override's value, a key holding
dicts on both sides maps to the recursive merge of the two, every other key
present in the override maps to the override's value verbatim, and merging an
empty override returns the base dict unchanged.  The override has duplicate-free
keys, as every Python dict does. -/
theorem deep_merge_characterization (base override : List (String × Value))
    (hnd : nodupKeys override = true) (k : String) :
    (∀ v, getKey override k = some v → getKey base k = none →
        getKey (deep_merge base override) k = some v) ∧
    (∀ bd od, getKey base k = some (Value.dict bd) →
        getKey override k = some (Value.dict od) →
        getKey (deep_merge base override) k = some (Value.dict (deep_merge bd od))) ∧
    (∀ v, getKey override k = some v →
        (∀ od, v = Value.dict od → ∀ bd, getKey base k ≠ some (Value.dict bd)) →
        getKey (deep_merge base override) k = some v) ∧
    deep_merge base [] = base := by
  have h := getKey_deep_merge override base k hnd
  refine ⟨?_, ?_, ?_, by simp [deep_merge]⟩
  · intro v hv hb
    rw [h]
    unfold mergeSpec
    rw [hv, hb]
    cases v <;> simp
  · intro bd od hb ho
    rw [h]
    unfold mergeSpec
    rw [ho, hb]
  · intro v hv hnb
    rw [h]
    unfold mergeSpec
    rw [hv]
    cases v with
    | dict od =>
      rcases hbk : getKey base k with _ | bv
      · simp
      · cases bv with
        | dict bd => exact absurd hbk (hnb od rfl bd)
        | bool x => simp
        | int x => simp
        | str x => simp
        | list x => simp
    | bool x => rcases hbk : getKey base k with _ | bv
                · simp
                · cases bv <;> simp
    | int x => rcases hbk : getKey base k with _ | bv
               · simp
               · cases bv <;> simp
    | str x => rcases hbk : getKey base k with _ | bv
               · simp
               · cases bv <;> simp
    | list x => rcases hbk : getKey base k with _ | bv
                · simp
                · cases bv <;> simp

/-- A concrete base dict for exercising `deep_merge_characterization`. -/
def c1base : List (String × Value) :=
  [("a", Value.int 1), ("s", Value.dict [("x", Value.int 1)]), ("keep", Value.str "K")]

/-- A concrete override dict for exercising `deep_merge_characterization`. -/
def c1override : List (String × Value) :=
  [("b", Value.int 2), ("s", Value.dict [("y", Value.int 3)]), ("a", Value.str "two")]

theorem deep_merge_characterization_witness :
    nodupKeys c1override = true ∧
    getKey (deep_merge c1base c1override) "b" = some (Value.int 2) ∧
    getKey (deep_merge c1base c1override) "s" =
      some (Value.dict (deep_merge [("x", Value.int 1)] [("y", Value.int 3)])) ∧
    getKey (deep_merge c1base c1override) "a" = some (Value.str "two") ∧
    deep_merge c1base [] = c1base := by
  have hnd : nodupKeys c1override = true := by simp [c1override, nodupKeys, getKey]
  refine ⟨hnd, ?_, ?_, ?_, ?_⟩
  · exact (deep_merge_characterization c1base c1override hnd "b").1 (Value.int 2)
      (by simp [c1override, getKey]) (by simp [c1base, getKey])
  · exact (deep_merge_characterization c1base c1override hnd "s").2.1
      [("x", Value.int 1)] [("y", Value.int 3)]
      (by simp [c1base, getKey]) (by simp [c1override, getKey])
  · exact (deep_merge_characterization c1base c1override hnd "a").2.2.1 (Value.str "two")
      (by simp [c1override, getKey]) (by intro od hod; cases hod)
  · exact (deep_merge_characterization c1base c1override hnd "a").2.2.2

/-! ### Health probing (`app.health_check`, `app.py` lines 45-67) -/

/-- A JSON value as serialised by Flask's `jsonify`; Python `None` becomes
`Json.null`, so a dict key bound to `None` stays present in the body. -/
inductive Json where
  | str : String → Json
  | int : Int → Json
  | null : Json
deriving DecidableEq

/-- The outcome of the outbound `requests.get(url, timeout=5)` call: either a
response with an HTTP status code, or a `requests.RequestException` covering
DNS failure, connection refusal and timeout. -/
inductive ProbeOutcome where
  | response : Nat → ProbeOutcome
  | transportError : ProbeOutcome

/-- The `try` block of `app.health_check`: `startMs` and `endMs` are the two
`time.time()` readings in whole milliseconds, so `endMs - startMs` is the
computed `latency_ms`.  On a response the body carries the integer latency and
`up` below status 500, `down` from 500; on a transport failure the body is
`{"status": "down", "latency_ms": None}`. -/
def probe_response (oc : ProbeOutcome) (startMs endMs : Int) : List (String × Json) :=
  match oc with
  | ProbeOutcome.response code =>
    let latency_ms := endMs - startMs
    if code < 500 then
      [("status", Json.str "up"), ("latency_ms", Json.int latency_ms)]
    else
      [("status", Json.str "down"), ("latency_ms", Json.int latency_ms)]
  | ProbeOutcome.transportError =>
    [("status", Json.str "down"), ("latency_ms", Json.null)]

/-- `app.health_check`: look the requested id up in the `services` table of the
freshly loaded configuration; answer 404 with the unknown-service body when it
is absent, and otherwise 200 with the probe result for the resolved URL (the
probe outcome and clock readings are the environment's inputs). -/
def health_check (services : List (String × Value)) (service_id : String)
    (oc : ProbeOutcome) (startMs endMs : Int) : Nat × List (String × Json) :=
  match getKey services service_id with
  | none => (404, [("status", Json.str "unknown"), ("error", Json.str "Service not found")])
  | some _ => (200, probe_response oc startMs endMs)

/-- Claim C2, counterexample: on a transport-level failure the response body is
not missing `latency_ms`; the key is present and bound to JSON `null`, because
the code returns `{"status": "down", "latency_ms": None}`. -/
theorem probe_latency_null_cex :
    probe_response ProbeOutcome.transportError 0 0 =
      [("status", Json.str "down"), ("latency_ms", Json.null)] ∧
    getKey (probe_response ProbeOutcome.transportError 0 0) "latency_ms" = some Json.null ∧
    getKey (probe_response ProbeOutcome.transportError 0 0) "latency_ms" ≠ none := by
  refine ⟨rfl, by simp [probe_response, getKey], by simp [probe_response, getKey]⟩

/-- Claim C2 (amended): a completed request with status below 500 yields
`{status: up}` with a non-negative integer latency, a completed request with
status 500 or above yields `{status: down}` with a non-negative integer
latency, and a transport-level failure yields `{status: down}` with
`latency_ms` present but null.  The clock does not run backwards between the
two readings. -/
theorem probe_classification (oc : ProbeOutcome) (startMs endMs : Int)
    (hclock : startMs ≤ endMs) :
    (∀ code, oc = ProbeOutcome.response code → code < 500 →
        probe_response oc startMs endMs =
          [("status", Json.str "up"), ("latency_ms", Json.int (endMs - startMs))] ∧
        0 ≤ endMs - startMs) ∧
    (∀ code, oc = ProbeOutcome.response code → 500 ≤ code →
        probe_response oc startMs endMs =
          [("status", Json.str "down"), ("latency_ms", Json.int (endMs - startMs))] ∧
        0 ≤ endMs - startMs) ∧
    (oc = ProbeOutcome.transportError →
        probe_response oc startMs endMs =
          [("status", Json.str "down"), ("latency_ms", Json.null)]) := by
  refine ⟨?_, ?_, ?_⟩
  · intro code hoc hlt
    subst hoc
    exact ⟨by simp [probe_response, hlt], by omega⟩
  · intro code hoc hge
    subst hoc
    have : ¬ code < 500 := by omega
    exact ⟨by simp [probe_response, this], by omega⟩
  · intro hoc
    subst hoc
    rfl

theorem probe_classification_witness :
    (0 : Int) ≤ 7 ∧
    (probe_response (ProbeOutcome.response 200) 0 7 =
        [("status", Json.str "up"), ("latency_ms", Json.int 7)] ∧
      (0 : Int) ≤ 7 - 0) ∧
    (probe_response (ProbeOutcome.response 503) 0 7 =
        [("status", Json.str "down"), ("latency_ms", Json.int 7)] ∧
      (0 : Int) ≤ 7 - 0) ∧
    probe_response ProbeOutcome.transportError 0 7 =
      [("status", Json.str "down"), ("latency_ms", Json.null)] := by
  refine ⟨by norm_num, ?_, ?_, ?_⟩
  · have h := (probe_classification (ProbeOutcome.response 200) 0 7 (by norm_num)).1
      200 rfl (by norm_num)
    simpa using h
  · have h := (probe_classification (ProbeOutcome.response 503) 0 7 (by norm_num)).2.1
      503 rfl (by norm_num)
    simpa using h
  · exact (probe_classification ProbeOutcome.transportError 0 7 (by norm_num)).2.2 rfl

/-- Claim C3: `GET /health/{service_id}` answers 404 with the unknown-service
body exactly when the id is not a key of the services table, and otherwise 200
carrying the probe result as JSON regardless of the probe's classification. -/
theorem health_route_spec (services : List (String × Value)) (service_id : String)
    (oc : ProbeOutcome) (startMs endMs : Int) :
    (getKey services service_id = none →
        health_check services service_id oc startMs endMs =
          (404, [("status", Json.str "unknown"), ("error", Json.str "Service not found")])) ∧
    (getKey services service_id ≠ none →
        health_check services service_id oc startMs endMs =
          (200, probe_response oc startMs endMs)) ∧
    ((health_check services service_id oc startMs endMs).1 = 404 →
        getKey services service_id = none) := by
  rcases hs : getKey services service_id with _ | sv
  · refine ⟨fun _ => ?_, fun hn => absurd rfl hn, fun _ => rfl⟩
    simp [health_check, hs]
  · refine ⟨fun hn => ?_, fun _ => ?_, fun h4 => ?_⟩
    · exact nomatch hn
    · simp [health_check, hs]
    · exfalso
      simp [health_check, hs] at h4

theorem health_route_spec_witness :
    getKey [("web", Value.dict [("url", Value.str "http:example")])] "web" ≠ none ∧
    health_check [("web", Value.dict [("url", Value.str "http:example")])] "web"
        (ProbeOutcome.response 200) 0 3 =
      (200, probe_response (ProbeOutcome.response 200) 0 3) ∧
    health_check [("web", Value.dict [("url", Value.str "http:example")])] "missing"
        (ProbeOutcome.response 200) 0 3 =
      (404, [("status", Json.str "unknown"), ("error", Json.str "Service not found")]) := by
  refine ⟨by simp [getKey], ?_, ?_⟩
  · exact (health_route_spec [("web", Value.dict [("url", Value.str "http:example")])]
      "web" (ProbeOutcome.response 200) 0 3).2.1 (by simp [getKey])
  · exact (health_route_spec [("web", Value.dict [("url", Value.str "http:example")])]
      "missing" (ProbeOutcome.response 200) 0 3).1 (by simp [getKey])

/-! ### Daemon controller (`server.py`) -/

/-- The text stored in `gunicorn.pid`: either a decimal process identifier or
content on which `int(...)` raises `ValueError`. -/
inductive FileContent where
  | invalid : FileContent
  | pid : Nat → FileContent

/-- The on-disk and process-table state the controller observes: the PID
file's content (or `none` when the file is absent), the liveness probe
`os.kill(p, 0)` (`false` for both `ProcessLookupError` and `PermissionError`),
and the log of termination signals actually delivered so far. -/
structure World where
  pidFile : Option FileContent
  live : Nat → Bool
  sent : List (Nat × Nat)

/-- Signal number of `signal.SIGTERM`. -/
def SIGTERM : Nat := 15

/-- Signal number of `signal.SIGKILL`. -/
def SIGKILL : Nat := 9

/-- Deliver a signal to a process: `os.kill(p, s)` succeeding. -/
def sendSig (w : World) (p s : Nat) : World :=
  { w with sent := w.sent ++ [(p, s)] }

/-- `server.get_pid`: read the PID file; when the content does not parse or
the zero-signal probe fails, delete the file (`PID_FILE.unlink`) and report no
PID. -/
def get_pid (w : World) : World × Option Nat :=
  match w.pidFile with
  | none => (w, none)
  | some FileContent.invalid => ({ w with pidFile := none }, none)
  | some (FileContent.pid p) =>
    if w.live p then (w, some p) else ({ w with pidFile := none }, none)

/-- Python truthiness of the optional PID (`if pid:`): `None` and `0` are
falsy. -/
def truthy : Option Nat → Bool
  | none => false
  | some p => p != 0

/-- The external effects of `subprocess.run([... gunicorn ...])` in
`server.start`: the command's return code and how the world evolves while the
command runs and the half-second wait elapses. -/
structure SpawnEnv where
  spawnCode : Int
  afterSpawn : World → World

/-- `server.start`: refuse with exit 1 while a live PID is recorded; otherwise
spawn gunicorn, and on return code 0 wait briefly and re-check the PID file,
reporting 0 when a live PID appeared and 1 otherwise; a non-zero spawn return
code is passed through. -/
def start (w : World) (e : SpawnEnv) : World × Int :=
  match get_pid w with
  | (w1, pid) =>
    if truthy pid then (w1, 1)
    else
      let w2 := e.afterSpawn w1
      if e.spawnCode = 0 then
        match get_pid w2 with
        | (w3, pid2) => if truthy pid2 then (w3, 0) else (w3, 1)
      else (w2, e.spawnCode)

/-- The environment of one `server.stop` run: whether the target process still
exists when `SIGTERM` is delivered (the initial probe may have raced), the
once-per-second liveness polls, and whether the process still exists when the
escalation `SIGKILL` is delivered. -/
structure StopEnv where
  termAlive : Bool
  aliveAt : Nat → Bool
  killAlive : Bool

/-- The `for _ in range(30)` wait loop of `server.stop`, polling liveness once
per second; when the process is gone the PID file is removed and 0 returned,
and after the window expires `SIGKILL` is sent (delivered only if the target
still exists), the PID file is removed and 0 returned. -/
def stopLoop (p : Nat) (es : StopEnv) : Nat → Nat → World → World × Int
  | _, 0, w =>
    let w1 := if es.killAlive then sendSig w p SIGKILL else w
    ({ w1 with pidFile := none }, 0)
  | i, r + 1, w =>
    if es.aliveAt i then stopLoop p es (i + 1) r w
    else ({ w with pidFile := none }, 0)

/-- `server.stop`: exit 1 when no live PID is recorded; otherwise send
`SIGTERM` and enter the wait loop; when the target vanished before the
`SIGTERM` could be delivered (`ProcessLookupError`), remove the stale PID file
and return 0. -/
def stop (w : World) (es : StopEnv) : World × Int :=
  match get_pid w with
  | (w1, none) => (w1, 1)
  | (w1, some p) =>
    if p = 0 then (w1, 1)
    else
      if es.termAlive then stopLoop p es 0 30 (sendSig w1 p SIGTERM)
      else ({ w1 with pidFile := none }, 0)

/-- `server.restart`: when a live PID is recorded run `stop` (discarding its
exit code), then return whatever `start` returns. -/
def restart (w : World) (es : StopEnv) (e : SpawnEnv) : World × Int :=
  match get_pid w with
  | (w1, pid) =>
    if truthy pid then start (stop w1 es).1 e else start w1 e

/-- `server.status`: exit 0 with a live recorded PID, exit 1 otherwise. -/
def status (w : World) : World × Int :=
  match get_pid w with
  | (w1, pid) => if truthy pid then (w1, 0) else (w1, 1)

/-- The daemon is Running: the PID file names a live process.  POSIX process
identifiers are positive (identifier 0 addresses the caller's whole process
group rather than a process), so a PID file naming a process holds some
positive `p` whose zero-signal probe succeeds. -/
def Running (w : World) : Prop :=
  ∃ p, w.pidFile = some (FileContent.pid p) ∧ 0 < p ∧ w.live p = true

/-- The daemon is Stopped: no PID file, or a stale one. -/
def Stopped (w : World) : Prop := ¬ Running w

/-- A world whose PID file names process 7, which is live. -/
def runningWorld : World :=
  { pidFile := some (FileContent.pid 7), live := fun p => p == 7, sent := [] }

/-- A world with a stale PID file: process 3 is gone. -/
def staleWorld : World :=
  { pidFile := some (FileContent.pid 3), live := fun _ => false, sent := [] }

/-- A world with no PID file. -/
def stoppedWorld : World := { pidFile := none, live := fun _ => false, sent := [] }

/-- A spawn that succeeds and changes nothing observable. -/
def spawnEnv0 : SpawnEnv := { spawnCode := 0, afterSpawn := id }

/-- A stop run against a process that survives every poll of the window. -/
def stopEnvStubborn : StopEnv :=
  { termAlive := true, aliveAt := fun _ => true, killAlive := true }

/-- A stop run whose target vanishes between the initial liveness check and
the `SIGTERM` delivery. -/
def stopEnvRace : StopEnv :=
  { termAlive := false, aliveAt := fun _ => true, killAlive := true }

/-- Claim C4: invoking `start` while the daemon is Running reports a conflict
with exit code 1 and has no side effect: the world — PID file contents,
process table and delivered-signal log — is returned untouched and nothing is
spawned. -/
theorem start_when_running (w : World) (e : SpawnEnv) (h : Running w) :
    start w e = (w, 1) := by
  obtain ⟨p, hpf, hp, hl⟩ := h
  have hp0 : p ≠ 0 := by omega
  simp [start, get_pid, hpf, hl, truthy, hp0]

theorem start_when_running_witness :
    Running runningWorld ∧ start runningWorld spawnEnv0 = (runningWorld, 1) :=
  ⟨⟨7, rfl, by omega, rfl⟩,
    start_when_running runningWorld spawnEnv0 ⟨7, rfl, by omega, rfl⟩⟩

theorem stopLoop_pidFile_exit (p : Nat) (es : StopEnv) :
    ∀ r i w, (stopLoop p es i r w).1.pidFile = none ∧ (stopLoop p es i r w).2 = 0 := by
  intro r
  induction r with
  | zero =>
    intro i w
    by_cases hk : es.killAlive <;> simp [stopLoop, hk, sendSig]
  | succ r ih =>
    intro i w
    by_cases ha : es.aliveAt i
    · simp only [stopLoop, ha, if_true]
      exact ih (i + 1) w
    · simp [stopLoop, ha]

theorem stopLoop_sent_extends (p : Nat) (es : StopEnv) :
    ∀ r i w, ∃ t, (stopLoop p es i r w).1.sent = w.sent ++ t := by
  intro r
  induction r with
  | zero =>
    intro i w
    by_cases hk : es.killAlive
    · exact ⟨[(p, SIGKILL)], by simp [stopLoop, hk, sendSig]⟩
    · exact ⟨[], by simp [stopLoop, hk]⟩
  | succ r ih =>
    intro i w
    by_cases ha : es.aliveAt i
    · simp only [stopLoop, ha, if_true]
      exact ih (i + 1) w
    · exact ⟨[], by simp [stopLoop, ha]⟩

theorem stopLoop_kill_mem (p : Nat) (es : StopEnv) (hk : es.killAlive = true) :
    ∀ r i w, (∀ j, j < r → es.aliveAt (i + j) = true) →
      (p, SIGKILL) ∈ (stopLoop p es i r w).1.sent := by
  intro r
  induction r with
  | zero =>
    intro i w _
    simp [stopLoop, hk, sendSig]
  | succ r ih =>
    intro i w hall
    have ha : es.aliveAt i = true := by simpa using hall 0 (by omega)
    simp only [stopLoop, ha, if_true]
    apply ih (i + 1) w
    intro j hj
    have h1 := hall (j + 1) (by omega)
    have heq : i + (j + 1) = i + 1 + j := by omega
    rw [heq] at h1
    exact h1

/-- Claim C5: invoking `stop` while the daemon is Running delivers `SIGTERM`
and enters the 30-iteration once-per-second wait loop; in every outcome of the
window the PID file is deleted and exit code 0 reported, and when the process
outlives all 30 polls the escalation `SIGKILL` is delivered as well — the PID
file is removed in both the graceful and the forced path. -/
theorem stop_when_running (w : World) (es : StopEnv) (p : Nat)
    (hpf : w.pidFile = some (FileContent.pid p)) (hp : 0 < p) (hl : w.live p = true)
    (ht : es.termAlive = true) :
    (p, SIGTERM) ∈ (stop w es).1.sent ∧
    (stop w es).1.pidFile = none ∧
    (stop w es).2 = 0 ∧
    ((∀ i, i < 30 → es.aliveAt i = true) → es.killAlive = true →
      (p, SIGKILL) ∈ (stop w es).1.sent) := by
  have hp0 : p ≠ 0 := by omega
  have hstop : stop w es = stopLoop p es 0 30 (sendSig w p SIGTERM) := by
    simp [stop, get_pid, hpf, hl, hp0, ht]
  refine ⟨?_, ?_, ?_, ?_⟩
  · rw [hstop]
    obtain ⟨t, hts⟩ := stopLoop_sent_extends p es 30 0 (sendSig w p SIGTERM)
    rw [hts]
    simp [sendSig]
  · rw [hstop]
    exact (stopLoop_pidFile_exit p es 30 0 _).1
  · rw [hstop]
    exact (stopLoop_pidFile_exit p es 30 0 _).2
  · intro hall hk
    rw [hstop]
    exact stopLoop_kill_mem p es hk 30 0 _ (fun j hj => by simpa using hall j hj)

theorem stop_when_running_witness :
    runningWorld.pidFile = some (FileContent.pid 7) ∧
    runningWorld.live 7 = true ∧
    stopEnvStubborn.termAlive = true ∧
    (7, SIGTERM) ∈ (stop runningWorld stopEnvStubborn).1.sent ∧
    (stop runningWorld stopEnvStubborn).1.pidFile = none ∧
    (stop runningWorld stopEnvStubborn).2 = 0 ∧
    (7, SIGKILL) ∈ (stop runningWorld stopEnvStubborn).1.sent := by
  have h := stop_when_running runningWorld stopEnvStubborn 7 rfl (by omega) rfl rfl
  exact ⟨rfl, rfl, rfl, h.1, h.2.1, h.2.2.1, h.2.2.2 (fun i _ => rfl) rfl⟩

/-- Claim C6: whenever the PID file names a process whose liveness probe
fails, each of `status`, `stop`, `start` and `restart` deletes the PID file as
a side effect of the check and then behaves exactly as it would from the
cleaned, stopped state. -/
theorem stale_pid_cleanup (w : World) (p : Nat) (es : StopEnv) (e : SpawnEnv)
    (hpf : w.pidFile = some (FileContent.pid p)) (hl : w.live p = false) :
    status w = ({ w with pidFile := none }, 1) ∧
    stop w es = ({ w with pidFile := none }, 1) ∧
    start w e = start { w with pidFile := none } e ∧
    restart w es e = restart { w with pidFile := none } es e := by
  have hg : get_pid w = ({ w with pidFile := none }, none) := by
    simp [get_pid, hpf, hl]
  have hg2 : get_pid { w with pidFile := none } = ({ w with pidFile := none }, none) := by
    simp [get_pid]
  refine ⟨?_, ?_, ?_, ?_⟩
  · simp [status, hg, truthy]
  · simp [stop, hg]
  · simp [start, hg, hg2, truthy]
  · simp [restart, hg, hg2, truthy]

theorem stale_pid_cleanup_witness :
    staleWorld.pidFile = some (FileContent.pid 3) ∧
    staleWorld.live 3 = false ∧
    status staleWorld = ({ staleWorld with pidFile := none }, 1) ∧
    stop staleWorld stopEnvStubborn = ({ staleWorld with pidFile := none }, 1) ∧
    start staleWorld spawnEnv0 = start { staleWorld with pidFile := none } spawnEnv0 ∧
    restart staleWorld stopEnvStubborn spawnEnv0 =
      restart { staleWorld with pidFile := none } stopEnvStubborn spawnEnv0 := by
  have h := stale_pid_cleanup staleWorld 3 stopEnvStubborn spawnEnv0 rfl rfl
  exact ⟨rfl, rfl, h.1, h.2.1, h.2.2.1, h.2.2.2⟩

/-- Claim C7: `restart` from a Stopped daemon behaves exactly as `start` —
same side effects and same exit code — and `restart` from a Running daemon
performs `stop`, discards its outcome, and returns whatever `start` then
returns. -/
theorem restart_spec (w : World) (es : StopEnv) (e : SpawnEnv) :
    (Stopped w → restart w es e = start w e) ∧
    (Running w → restart w es e = start (stop w es).1 e) := by
  constructor
  · intro hs
    rcases hw : w.pidFile with _ | fc
    · have hg : get_pid w = (w, none) := by simp [get_pid, hw]
      simp [restart, hg, truthy]
    · cases fc with
      | invalid =>
        have hg : get_pid w = ({ w with pidFile := none }, none) := by simp [get_pid, hw]
        have hg2 : get_pid { w with pidFile := none } =
            ({ w with pidFile := none }, none) := by simp [get_pid]
        simp [restart, start, hg, hg2, truthy]
      | pid p =>
        by_cases hl : w.live p
        · have hp0 : p = 0 := by
            by_contra hne
            exact hs ⟨p, hw, Nat.pos_of_ne_zero hne, hl⟩
          subst hp0
          have hg : get_pid w = (w, some 0) := by simp [get_pid, hw, hl]
          simp [restart, hg, truthy]
        · have hg : get_pid w = ({ w with pidFile := none }, none) := by
            simp [get_pid, hw, hl]
          have hg2 : get_pid { w with pidFile := none } =
              ({ w with pidFile := none }, none) := by simp [get_pid]
          simp [restart, start, hg, hg2, truthy]
  · intro hr
    obtain ⟨p, hpf, hp, hl⟩ := hr
    have hp0 : p ≠ 0 := by omega
    have hg : get_pid w = (w, some p) := by simp [get_pid, hpf, hl]
    simp [restart, hg, truthy, hp0]

theorem restart_spec_witness :
    Stopped stoppedWorld ∧
    restart stoppedWorld stopEnvStubborn spawnEnv0 = start stoppedWorld spawnEnv0 ∧
    Running runningWorld ∧
    restart runningWorld stopEnvStubborn spawnEnv0 =
      start (stop runningWorld stopEnvStubborn).1 spawnEnv0 := by
  have hstopped : Stopped stoppedWorld := by
    rintro ⟨p, hpf, hp, hl⟩
    exact nomatch hpf
  have hrunning : Running runningWorld := ⟨7, rfl, by omega, rfl⟩
  exact ⟨hstopped,
    (restart_spec stoppedWorld stopEnvStubborn spawnEnv0).1 hstopped,
    hrunning,
    (restart_spec runningWorld stopEnvStubborn spawnEnv0).2 hrunning⟩

/-- Claim C8, counterexample: when the target process disappears between the
initial liveness check and the `SIGTERM` send, `stop` deletes the stale PID
file and returns exit code 0 — not the exit code 1 that the CLI contract
assigns to the already-in-requested-state case (`stop` on a stopped daemon
returns 1). -/
theorem stop_race_cex :
    runningWorld.pidFile = some (FileContent.pid 7) ∧
    runningWorld.live 7 = true ∧
    stopEnvRace.termAlive = false ∧
    stop runningWorld stopEnvRace = ({ runningWorld with pidFile := none }, 0) ∧
    (stop runningWorld stopEnvRace).2 ≠ 1 ∧
    stop stoppedWorld stopEnvRace = (stoppedWorld, 1) := by
  have h : stop runningWorld stopEnvRace = ({ runningWorld with pidFile := none }, 0) := by
    simp [stop, get_pid, runningWorld, stopEnvRace, truthy]
  refine ⟨rfl, rfl, rfl, h, ?_, ?_⟩
  · rw [h]
    simp
  · simp [stop, get_pid, stoppedWorld]

/-- Claim C8 (amended): when the target process disappears between the initial
liveness check and the `SIGTERM` send, `stop` treats the daemon as
already-stopped: it deletes the stale PID file, does not crash, and returns
exit code 0 (success) — unlike the exit code 1 that `stop` returns when no
live PID was recorded in the first place. -/
theorem stop_race (w : World) (es : StopEnv) (p : Nat)
    (hpf : w.pidFile = some (FileContent.pid p)) (hp : 0 < p) (hl : w.live p = true)
    (ht : es.termAlive = false) :
    stop w es = ({ w with pidFile := none }, 0) := by
  have hp0 : p ≠ 0 := by omega
  simp [stop, get_pid, hpf, hl, hp0, ht]

theorem stop_race_witness :
    runningWorld.pidFile = some (FileContent.pid 7) ∧
    runningWorld.live 7 = true ∧
    stopEnvRace.termAlive = false ∧
    stop runningWorld stopEnvRace = ({ runningWorld with pidFile := none }, 0) :=
  ⟨rfl, rfl, rfl, stop_race runningWorld stopEnvRace 7 rfl (by omega) rfl rfl⟩

/-! ### Port resolution (`gunicorn.conf.py` and `app.main`) -/

/-- Python `d.get(k, dflt)`. -/
def dict_get (d : List (String × Value)) (k : String) (dflt : Value) : Value :=
  (getKey d k).getD dflt

/-- `cfg.get("server", {}).get("port", dflt)` as both port readers perform it:
`none` models the `AttributeError` crash when the `server` value is not a
dict. -/
def get_port_from (cfg : List (String × Value)) (dflt : Value) : Option Value :=
  match dict_get cfg "server" (Value.dict []) with
  | Value.dict s => some (dict_get s "port" dflt)
  | _ => none

/-- `_load_port` from `gunicorn.conf.py`: start from 5000; when the base
document exists take its `server.port` (keeping the running default when the
key is absent), then do the same with the local document.  Either a base or a
local document may be absent (`Path.exists` guards each read); `none` models a
crash. -/
def load_port (base localCfg : Option (List (String × Value))) : Option Value :=
  match base with
  | none =>
    match localCfg with
    | none => some (Value.int 5000)
    | some l => get_port_from l (Value.int 5000)
  | some b =>
    match get_port_from b (Value.int 5000) with
    | none => none
    | some p1 =>
      match localCfg with
      | none => some p1
      | some l => get_port_from l p1

/-- `app.load_config`: `open(CONFIG_PATH)` raises when the base document is
absent (`none`); the local document is deep-merged over the base when it
exists. -/
def load_config (base localCfg : Option (List (String × Value))) :
    Option (List (String × Value)) :=
  match base with
  | none => none
  | some b =>
    match localCfg with
    | none => some b
    | some l => some (deep_merge b l)

/-- The port `app.main` computes: `load_config().get("server", {}).get("port",
5000)`. -/
def app_main_port (base localCfg : Option (List (String × Value))) : Option Value :=
  match load_config base localCfg with
  | none => none
  | some cfg => get_port_from cfg (Value.int 5000)

theorem mergeSpec_override_none (b o : List (String × Value)) (k : String)
    (ho : getKey o k = none) : mergeSpec b o k = getKey b k := by
  unfold mergeSpec
  rw [ho]

theorem mergeSpec_base_none (b o : List (String × Value)) (k : String)
    (hb : getKey b k = none) : mergeSpec b o k = getKey o k := by
  unfold mergeSpec
  rw [hb]
  rcases ho : getKey o k with _ | v
  · rfl
  · cases v <;> rfl

theorem mergeSpec_both_dict (b o : List (String × Value)) (k : String)
    (bd od : List (String × Value)) (hb : getKey b k = some (Value.dict bd))
    (ho : getKey o k = some (Value.dict od)) :
    mergeSpec b o k = some (Value.dict (deep_merge bd od)) := by
  unfold mergeSpec
  rw [ho, hb]

theorem mergeSpec_override_nondict (b o : List (String × Value)) (k : String)
    (v : Value) (ho : getKey o k = some v) (hv : ∀ d, v ≠ Value.dict d) :
    mergeSpec b o k = some v := by
  unfold mergeSpec
  rw [ho]
  cases v with
  | dict d => exact absurd rfl (hv d)
  | bool x =>
    rcases hbk : getKey b k with _ | bv
    · rfl
    · cases bv <;> rfl
  | int x =>
    rcases hbk : getKey b k with _ | bv
    · rfl
    · cases bv <;> rfl
  | str x =>
    rcases hbk : getKey b k with _ | bv
    · rfl
    · cases bv <;> rfl
  | list x =>
    rcases hbk : getKey b k with _ | bv
    · rfl
    · cases bv <;> rfl

theorem get_port_from_none (cfg : List (String × Value)) (dflt : Value)
    (h : getKey cfg "server" = none) : get_port_from cfg dflt = some dflt := by
  simp [get_port_from, dict_get, getKey, h]

theorem get_port_from_dict (cfg : List (String × Value)) (dflt : Value)
    (s : List (String × Value)) (h : getKey cfg "server" = some (Value.dict s)) :
    get_port_from cfg dflt = some (dict_get s "port" dflt) := by
  simp [get_port_from, dict_get, h]

theorem get_port_from_nondict (cfg : List (String × Value)) (dflt : Value)
    (lv : Value) (h : getKey cfg "server" = some lv) (hv : ∀ d, lv ≠ Value.dict d) :
    get_port_from cfg dflt = none := by
  unfold get_port_from dict_get
  rw [h]
  cases lv with
  | dict d => exact absurd rfl (hv d)
  | bool x => rfl
  | int x => rfl
  | str x => rfl
  | list x => rfl

/-- A TOML base document whose top-level `server` key holds a scalar. -/
def c9baseScalar : List (String × Value) := [("server", Value.int 3)]

/-- A local document with a `server` table carrying `port = 8000`. -/
def c9localTable : List (String × Value) :=
  [("server", Value.dict [("port", Value.int 8000)])]

/-- A base document whose `server.port` is itself a table. -/
def c9basePortTable : List (String × Value) :=
  [("server", Value.dict [("port", Value.dict [("x", Value.int 1)])])]

/-- A local document whose `server.port` is itself a table. -/
def c9localPortTable : List (String × Value) :=
  [("server", Value.dict [("port", Value.dict [("y", Value.int 2)])])]

/-- Claim C9, counterexample: the two port computations disagree on concrete
document pairs.  With both documents absent the process-manager configuration
yields 5000 while the web application fails to start (its base read raises);
with a scalar base `server` overridden by a `server` table the manager crashes
while the application computes 8000; and with table-valued `server.port` on
both sides the manager takes the local table verbatim while the application
deep-merges the two tables. -/
theorem port_agreement_cex :
    load_port none none = some (Value.int 5000) ∧
    app_main_port none none = none ∧
    load_port (some c9baseScalar) (some c9localTable) = none ∧
    app_main_port (some c9baseScalar) (some c9localTable) = some (Value.int 8000) ∧
    load_port (some c9basePortTable) (some c9localPortTable) =
      some (Value.dict [("y", Value.int 2)]) ∧
    app_main_port (some c9basePortTable) (some c9localPortTable) =
      some (Value.dict [("x", Value.int 1), ("y", Value.int 2)]) := by
  refine ⟨rfl, rfl, ?_, ?_, ?_, ?_⟩
  · simp [load_port, get_port_from, dict_get, getKey, c9baseScalar, c9localTable]
  · simp [app_main_port, load_config, get_port_from, dict_get, getKey, setKey,
      deep_merge, mergeStep, c9baseScalar, c9localTable]
  · simp [load_port, get_port_from, dict_get, getKey, c9basePortTable, c9localPortTable]
  · simp [app_main_port, load_config, get_port_from, dict_get, getKey, setKey,
      deep_merge, mergeStep, c9basePortTable, c9localPortTable]

/-- Any `server` entry of the document is a table; TOML `[server]` sections
guarantee this. -/
def serverTableShape (d : List (String × Value)) : Prop :=
  ∀ v, getKey d "server" = some v → ∃ s, v = Value.dict s

/-- The local override document is a Python dict (duplicate-free keys), its
`server` table again has duplicate-free keys, and its `server.port`, when
present, is not a table — the spec types the port as an integer. -/
def overrideOk (l : List (String × Value)) : Prop :=
  nodupKeys l = true ∧
  ∀ s, getKey l "server" = some (Value.dict s) →
    nodupKeys s = true ∧ ∀ pv, getKey s "port" = some pv → ∀ pd, pv ≠ Value.dict pd

/-- Claim C9 (amended): whenever the base document is present, every `server`
entry holds a table with duplicate-free keys, and `server.port` values are not
tables, the listening port computed by the process-manager configuration
equals the port the web application computes from the deep-merged
configuration. -/
theorem port_agreement (b : List (String × Value))
    (localCfg : Option (List (String × Value)))
    (hb : serverTableShape b)
    (hl : ∀ l, localCfg = some l → overrideOk l) :
    load_port (some b) localCfg = app_main_port (some b) localCfg := by
  cases localCfg with
  | none =>
    simp only [load_port, app_main_port, load_config]
    rcases hgp : get_port_from b (Value.int 5000) with _ | p1 <;> simp
  | some l =>
    obtain ⟨hlnd, hlsrv⟩ := hl l rfl
    have hmerge := getKey_deep_merge l b "server" hlnd
    simp only [load_port, app_main_port, load_config]
    rcases hbs : getKey b "server" with _ | bv
    · -- the base document has no server table
      rw [get_port_from_none b (Value.int 5000) hbs]
      show get_port_from l (Value.int 5000) =
        get_port_from (deep_merge b l) (Value.int 5000)
      rcases hls : getKey l "server" with _ | lv
      · have hm : getKey (deep_merge b l) "server" = none := by
          rw [hmerge, mergeSpec_override_none b l "server" hls, hbs]
        rw [get_port_from_none l (Value.int 5000) hls,
          get_port_from_none (deep_merge b l) (Value.int 5000) hm]
      · by_cases hd : ∃ s, lv = Value.dict s
        · obtain ⟨ls, rfl⟩ := hd
          have hm : getKey (deep_merge b l) "server" = some (Value.dict ls) := by
            rw [hmerge, mergeSpec_base_none b l "server" hbs, hls]
          rw [get_port_from_dict l (Value.int 5000) ls hls,
            get_port_from_dict (deep_merge b l) (Value.int 5000) ls hm]
        · have hv : ∀ d, lv ≠ Value.dict d := fun d h => hd ⟨d, h⟩
          have hm : getKey (deep_merge b l) "server" = some lv := by
            rw [hmerge, mergeSpec_base_none b l "server" hbs, hls]
          rw [get_port_from_nondict l (Value.int 5000) lv hls hv,
            get_port_from_nondict (deep_merge b l) (Value.int 5000) lv hm hv]
    · -- the base server entry is a table
      obtain ⟨bs, rfl⟩ := hb bv hbs
      rw [get_port_from_dict b (Value.int 5000) bs hbs]
      show get_port_from l (dict_get bs "port" (Value.int 5000)) =
        get_port_from (deep_merge b l) (Value.int 5000)
      rcases hls : getKey l "server" with _ | lv
      · have hm : getKey (deep_merge b l) "server" = some (Value.dict bs) := by
          rw [hmerge, mergeSpec_override_none b l "server" hls, hbs]
        rw [get_port_from_none l (dict_get bs "port" (Value.int 5000)) hls,
          get_port_from_dict (deep_merge b l) (Value.int 5000) bs hm]
      · by_cases hd : ∃ s, lv = Value.dict s
        · obtain ⟨ls, rfl⟩ := hd
          obtain ⟨hlsnd, hports⟩ := hlsrv ls hls
          have hm : getKey (deep_merge b l) "server" =
              some (Value.dict (deep_merge bs ls)) := by
            rw [hmerge, mergeSpec_both_dict b l "server" bs ls hbs hls]
          rw [get_port_from_dict l (dict_get bs "port" (Value.int 5000)) ls hls,
            get_port_from_dict (deep_merge b l) (Value.int 5000) (deep_merge bs ls) hm]
          have hport := getKey_deep_merge ls bs "port" hlsnd
          rcases hlp : getKey ls "port" with _ | pv
          · have : mergeSpec bs ls "port" = getKey bs "port" :=
              mergeSpec_override_none bs ls "port" hlp
            simp [dict_get, hport, this, hlp]
          · have hpv : mergeSpec bs ls "port" = some pv :=
              mergeSpec_override_nondict bs ls "port" pv hlp
                (fun d h => hports pv hlp d h)
            simp [dict_get, hport, hpv, hlp]
        · have hv : ∀ d, lv ≠ Value.dict d := fun d h => hd ⟨d, h⟩
          have hm : getKey (deep_merge b l) "server" = some lv := by
            rw [hmerge, mergeSpec_override_nondict b l "server" lv hls hv]
          rw [get_port_from_nondict l (dict_get bs "port" (Value.int 5000)) lv hls hv,
            get_port_from_nondict (deep_merge b l) (Value.int 5000) lv hm hv]

/-- A well-shaped base document for exercising `port_agreement`. -/
def c9base : List (String × Value) :=
  [("server", Value.dict [("port", Value.int 8080)]), ("services", Value.dict [])]

/-- A well-shaped local override for exercising `port_agreement`. -/
def c9local : List (String × Value) :=
  [("server", Value.dict [("port", Value.int 9090)])]

theorem port_agreement_witness :
    serverTableShape c9base ∧
    overrideOk c9local ∧
    load_port (some c9base) (some c9local) = app_main_port (some c9base) (some c9local) := by
  have hb : serverTableShape c9base := by
    intro v hv
    simp [c9base, getKey] at hv
    exact ⟨[("port", Value.int 8080)], hv.symm⟩
  have hl : overrideOk c9local := by
    constructor
    · simp [c9local, nodupKeys, getKey]
    · intro s hs
      simp [c9local, getKey] at hs
      subst hs
      constructor
      · simp [nodupKeys, getKey]
      · intro pv hpv pd
        simp [getKey] at hpv
        subst hpv
        intro h
        cases h
  exact ⟨hb, hl, port_agreement c9base (some c9local) hb (fun l hll => by
    cases hll
    exact hl)⟩

/-! ### Object identity of `deep_merge` (heap model)

Python dicts are mutable heap objects.  To settle whether `deep_merge`
mutates its arguments, the function is re-embedded against an explicit heap:
every dict is an address into the heap, `base.copy()` allocates a fresh
object, and an assignment `result[key] = v` writes the object at the result's
address in place.  Scalars and lists are immutable values here — the code
never mutates a list.  Recursion is fuelled because heap references may be
cyclic, in which case the Python original would also fail to terminate. -/

/-- A Python value: immutable scalars and lists, or a reference to a dict
object living in the heap. -/
inductive PVal where
  | int : Int → PVal
  | str : String → PVal
  | list : List PVal → PVal
  | ref : Nat → PVal

/-- A dict object: its bindings in insertion order. -/
abbrev Obj := List (String × PVal)

/-- The heap: object number `a` is `h[a]?`; allocation appends. -/
abbrev Heap := List Obj

mutual

/-- `app.deep_merge` over the heap: read both argument objects, allocate
`result = base.copy()` at the fresh address `h.length`, and run the loop over
the override's items. -/
def deep_merge_h : Nat → Heap → Nat → Nat → Option (Heap × Nat)
  | 0, _, _, _ => none
  | fuel + 1, h, b, o =>
    match h[b]?, h[o]? with
    | some bObj, some oObj => mergeLoop fuel (h ++ [bObj]) h.length oObj
    | _, _ => none
termination_by fuel _ _ _ => (fuel, 0)

/-- The `for key, value in override.items()` loop of `app.deep_merge` over
the heap: when the current result binding and the override value are both
dict references, recurse and write the merged reference in place; otherwise
write the override value in place. -/
def mergeLoop : Nat → Heap → Nat → Obj → Option (Heap × Nat)
  | _, h, r, [] => some (h, r)
  | fuel, h, r, (k, v) :: rest =>
    match h[r]? with
    | none => none
    | some resObj =>
      match getKey resObj k, v with
      | some (PVal.ref bb), PVal.ref oo =>
        match deep_merge_h fuel h bb oo with
        | none => none
        | some (h2, m) =>
          match h2[r]? with
          | none => none
          | some resObj2 =>
            mergeLoop fuel (h2.set r (setKey resObj2 k (PVal.ref m))) r rest
      | _, _ => mergeLoop fuel (h.set r (setKey resObj k v)) r rest
termination_by fuel _ _ o => (fuel, o.length + 1)

end

theorem mergeLoop_frame (fuel : Nat)
    (hD : ∀ hp b o hp2 r, deep_merge_h fuel hp b o = some (hp2, r) →
      r = hp.length ∧ hp.length < hp2.length ∧
      ∀ a, a < hp.length → hp2[a]? = hp[a]?) :
    ∀ o hp r hp2 r2, mergeLoop fuel hp r o = some (hp2, r2) →
      r2 = r ∧ hp.length ≤ hp2.length ∧
      ∀ a, a < hp.length → a ≠ r → hp2[a]? = hp[a]? := by
  intro o
  induction o with
  | nil =>
    intro hp r hp2 r2 heq
    simp [mergeLoop] at heq
    obtain ⟨h1, h2⟩ := heq
    subst h1
    subst h2
    exact ⟨rfl, le_refl _, fun a _ _ => rfl⟩
  | cons kv rest ih =>
    obtain ⟨k, v⟩ := kv
    intro hp r hp2 r2 heq
    rw [mergeLoop] at heq
    split at heq
    · exact nomatch heq
    · rename_i resObj hres
      split at heq
      · rename_i bb oo hget
        split at heq
        · exact nomatch heq
        · rename_i h2 m hrec
          split at heq
          · exact nomatch heq
          · rename_i resObj2 hres2
            obtain ⟨hm, hlen2, hframe2⟩ := hD hp bb oo h2 m hrec
            obtain ⟨hr2, hlen3, hframe3⟩ := ih _ _ _ _ heq
            refine ⟨hr2, ?_, ?_⟩
            · calc hp.length ≤ h2.length := le_of_lt hlen2
                _ = (h2.set r (setKey resObj2 k (PVal.ref m))).length :=
                    (List.length_set _ _ _).symm
                _ ≤ hp2.length := hlen3
            · intro a ha hne
              have h1 : hp2[a]? = (h2.set r (setKey resObj2 k (PVal.ref m)))[a]? := by
                apply hframe3 a _ hne
                rw [List.length_set]
                omega
              rw [h1, List.getElem?_set_ne (Ne.symm hne), hframe2 a ha]
      · obtain ⟨hr2, hlen3, hframe3⟩ := ih _ _ _ _ heq
        refine ⟨hr2, ?_, ?_⟩
        · rw [List.length_set] at hlen3
          exact hlen3
        · intro a ha hne
          rw [hframe3 a (by rw [List.length_set]; exact ha) hne,
            List.getElem?_set_ne (Ne.symm hne)]

theorem deep_merge_h_frame :
    ∀ fuel hp b o hp2 r, deep_merge_h fuel hp b o = some (hp2, r) →
      r = hp.length ∧ hp.length < hp2.length ∧
      ∀ a, a < hp.length → hp2[a]? = hp[a]? := by
  intro fuel
  induction fuel with
  | zero =>
    intro hp b o hp2 r heq
    simp [deep_merge_h] at heq
  | succ fuel ih =>
    intro hp b o hp2 r heq
    rw [deep_merge_h] at heq
    split at heq
    · rename_i bObj oObj hbObj hoObj
      obtain ⟨hr, hlen, hframe⟩ := mergeLoop_frame fuel ih _ _ _ _ _ heq
      refine ⟨hr, ?_, ?_⟩
      · have : (hp ++ [bObj]).length ≤ hp2.length := hlen
        rw [List.length_append] at this
        simp at this
        omega
      · intro a ha
        have h1 : hp2[a]? = (hp ++ [bObj])[a]? := by
          apply hframe a _ _
          · rw [List.length_append]
            simp
            omega
          · omega
        rw [h1, List.getElem?_append_left ha]
    · exact nomatch heq

/-- Claim C10: `deep_merge` mutates neither of its arguments — every object
present in the heap before the call, hence both argument dicts and everything
reachable from them, is unchanged when the call returns — and the result is a
newly constructed dict: its address is exactly the old heap bound, fresh at
call time, as every merged level's address is for its own recursive call. -/
theorem deep_merge_no_mutation (fuel : Nat) (hp : Heap) (b o : Nat)
    (hp2 : Heap) (r : Nat) (heq : deep_merge_h fuel hp b o = some (hp2, r)) :
    (∀ a, a < hp.length → hp2[a]? = hp[a]?) ∧
    r = hp.length ∧ hp.length < hp2.length := by
  obtain ⟨h1, h2, h3⟩ := deep_merge_h_frame fuel hp b o hp2 r heq
  exact ⟨h3, h1, h2⟩

/-- A two-object heap: object 0 is `{"a": 1}`, object 1 is `{"b": 2}`. -/
def c10heap : Heap := [[("a", PVal.int 1)], [("b", PVal.int 2)]]

/-- The heap after merging object 1 into object 0: the fresh result object 2
holds the merge and the two argument objects are untouched. -/
def c10heapAfter : Heap :=
  [[("a", PVal.int 1)], [("b", PVal.int 2)], [("a", PVal.int 1), ("b", PVal.int 2)]]

theorem deep_merge_no_mutation_witness :
    deep_merge_h 1 c10heap 0 1 = some (c10heapAfter, 2) ∧
    (∀ a, a < c10heap.length → c10heapAfter[a]? = c10heap[a]?) ∧
    (2 : Nat) = c10heap.length ∧ c10heap.length < c10heapAfter.length := by
  have heq : deep_merge_h 1 c10heap 0 1 = some (c10heapAfter, 2) := by
    show deep_merge_h (0 + 1) c10heap 0 1 = some (c10heapAfter, 2)
    rw [deep_merge_h]
    simp [c10heap, c10heapAfter, mergeLoop, getKey, setKey, List.set]
  have h := deep_merge_no_mutation 1 c10heap 0 1 c10heapAfter 2 heq
  exact ⟨heq, h.1, h.2.1, h.2.2⟩

end Bearden
